import Mathlib

/-!
Verification of the whisper_PGE transcription front-end.

This file gives a shallow embedding, in Lean 4, of the parts of the
repository relevant to the frozen claims: the progress-text scanner
(`ProgressCapture._extrair_percentual` in `main.py`), the stream
interceptor's progress reporting (`ProgressCapture.write`), the scoped
channel swap of `transcrever_com_feedback`, the per-file loop of
`transcrever_arquivos`, the start-time validation of
`iniciar_transcricao`, the two result writers, the timestamp formatter,
and the launcher's single-instance check (`is_already_running` in
`launcher.py`).

Modelling conventions:
* Python strings are Lean `String` / `List Char`; the text helpers
  (`strip`, last-segment-after-separator, decimal rendering) are
  re-implemented with structural recursion so that concrete inputs
  evaluate by `decide` / `rfl`.
* Python floats are modelled as exact rationals (`ℚ`); the `%06.3f`
  formatting rounds to three decimals with round-half-to-even, matching
  float formatting on the inputs considered here.
* Exceptions are modelled as explicit outcome values; a `try/finally`
  becomes a function that produces the `finally` effect on every
  outcome.
-/

namespace WhisperPGE

/-! ### Decimal rendering and padding helpers

`natRepr n` renders `n` in decimal, as Python `str(n)` does for
non-negative integers.  The auxiliary function is fuel-indexed so that
the recursion is structural (fuel `n` suffices: the number of decimal
digits of `n ≥ 1` is at most `n`). -/

def natReprAux : Nat → Nat → List Char
  | 0, _ => []
  | fuel + 1, n => if n = 0 then [] else natReprAux fuel (n / 10) ++ [Char.ofNat (48 + n % 10)]

def natRepr (n : Nat) : String :=
  if n = 0 then "0" else String.mk (natReprAux n n)

/-- Left-pad a string with `'0'` up to width `w`; models Python's
zero-padded width in format specs such as `%02d` and `%06.3f`. -/
def padZeros (w : Nat) (s : String) : String :=
  String.mk (List.replicate (w - s.length) '0') ++ s

/-- Python `str.strip()` (with no argument): remove leading and trailing
whitespace. -/
def pyStrip (s : String) : String :=
  String.mk (((s.toList.dropWhile Char.isWhitespace).reverse.dropWhile
    Char.isWhitespace).reverse)

/-- `digitsVal ds` is the integer denoted by a list of decimal digit
characters, as Python `int(...)` reads a digit string. -/
def digitsVal (ds : List Char) : Nat :=
  ds.foldl (fun a c => a * 10 + (c.toNat - 48)) 0

/-- Substring test on character lists; models Python's `needle in hay`. -/
def containsSub (needle : List Char) : List Char → Bool
  | [] => needle.isEmpty
  | c :: rest => List.isPrefixOf needle (c :: rest) || containsSub needle rest

/-! ### `ProgressCapture._extrair_percentual` (main.py lines 515-535)

The source:
```
ultimo_trecho = texto
if "\r" in texto:
    ultimo_trecho = texto.split("\r")[-1]
if "\n" in ultimo_trecho:
    ultimo_trecho = ultimo_trecho.split("\n")[-1]
ultimo_trecho = re.sub(r"\x1b\[[0-9;]*m", "", ultimo_trecho)

for padrao in self.patterns:
    match = padrao.search(ultimo_trecho)
    if match:
        if padrao.groups == 2:
            atual = int(match.group(1))
            total = int(match.group(2))
            if total > 0:
                return (atual / total) * 100
        else:
            valor = int(match.group(1))
            if 0 <= valor <= 100:
                return float(valor)
return None
```
with `patterns = [r"(\d{1,3})%\|", r"(\d{1,3})%", r"(\d{1,3})/(\d+)"]`.
-/

/-- `texto.split(sep)[-1]` for a one-character separator: the portion of
the character list after the last occurrence of `sep` (the whole list
when `sep` does not occur, matching the source's `if sep in texto`
guard). -/
def ultimoSegmento (sep : Char) (l : List Char) : List Char :=
  (l.reverse.takeWhile (fun c => c ≠ sep)).reverse

/-- After `ESC [` was consumed: skip over `[0-9;]*`, and succeed (with
the remainder) on the closing `m`.  Models the body of the regex
`\x1b\[[0-9;]*m`. -/
def scanAnsiBody : List Char → Option (List Char)
  | [] => none
  | c :: rest =>
    if c = 'm' then some rest
    else if c.isDigit || c = ';' then scanAnsiBody rest
    else none

/-- `re.sub(r"\x1b\[[0-9;]*m", "", ·)` on a character list: delete each
non-overlapping match of the ANSI color/style escape pattern, scanning
left to right.  Fuel-indexed structural recursion (fuel = input length
suffices: every step consumes at least one input character). -/
def stripAnsiAux : Nat → List Char → List Char
  | 0, l => l
  | _ + 1, [] => []
  | fuel + 1, c :: rest =>
    if c = Char.ofNat 27 && rest.head? = some '[' then
      match scanAnsiBody rest.tail with
      | some rem => stripAnsiAux fuel rem
      | none => c :: stripAnsiAux fuel rest
    else c :: stripAnsiAux fuel rest

def stripAnsi (l : List Char) : List Char :=
  stripAnsiAux l.length l

/-- Up to `k` leading decimal digits, greedily: succeeds when the list
starts with exactly `k` digit characters, returning their value and the
remainder.  Building block for the regex fragment `\d{1,3}` (tried with
`k = 3, 2, 1` in that order, as a backtracking greedy bounded repeat). -/
def tryDigits (k : Nat) (l : List Char) : Option (Nat × List Char) :=
  let d := l.take k
  if d.length = k && d.all Char.isDigit then some (digitsVal d, l.drop k) else none

/-- Match `(\d{1,3})` followed by the literal `lits` at the head of `l`,
with the greedy/backtracking choice of digit-run length. -/
def pctCandidate (lits : List Char) (l : List Char) (k : Nat) : Option Nat :=
  match tryDigits k l with
  | some (v, rest) => if List.isPrefixOf lits rest then some v else none
  | none => none

def matchPctAt (lits : List Char) (l : List Char) : Option Nat :=
  match pctCandidate lits l 3 with
  | some v => some v
  | none =>
    match pctCandidate lits l 2 with
    | some v => some v
    | none => pctCandidate lits l 1

/-- `re.search` for `(\d{1,3})` ++ literal `lits`: try each start
position left to right, returning the captured integer of the leftmost
match.  Instantiated with `lits = "%|"` for the first source pattern and
`lits = "%"` for the second. -/
def searchPct (lits : List Char) : List Char → Option Nat
  | [] => none
  | c :: rest =>
    match matchPctAt lits (c :: rest) with
    | some v => some v
    | none => searchPct lits rest

/-- Match `(\d{1,3})/(\d+)` at the head of `l` (digit-run length `k` for
the numerator; the denominator's `\d+` is greedy with nothing after it,
so it is the maximal digit run). -/
def ratioCandidate (l : List Char) (k : Nat) : Option (Nat × Nat) :=
  match tryDigits k l with
  | some (a, rest) =>
    match rest with
    | '/' :: rest2 =>
      let ds := rest2.takeWhile Char.isDigit
      if ds.isEmpty then none else some (a, digitsVal ds)
    | _ => none
  | none => none

def matchRatioAt (l : List Char) : Option (Nat × Nat) :=
  match ratioCandidate l 3 with
  | some p => some p
  | none =>
    match ratioCandidate l 2 with
    | some p => some p
    | none => ratioCandidate l 1

/-- `re.search` for `(\d{1,3})/(\d+)`: leftmost match. -/
def searchRatio : List Char → Option (Nat × Nat)
  | [] => none
  | c :: rest =>
    match matchRatioAt (c :: rest) with
    | some p => some p
    | none => searchRatio rest

/-- The loop body for the two one-group patterns: on a match, return
`float(valor)` only when `0 <= valor <= 100` (the lower bound is
automatic for `valor : ℕ`); otherwise fall through to the next
pattern. -/
def validaPct (o : Option Nat) : Option ℚ :=
  o.bind (fun v => if v ≤ 100 then some (v : ℚ) else none)

/-- The loop body for the two-group ratio pattern: on a match, return
`(atual / total) * 100` only when `total > 0`; otherwise fall through
(the pattern loop then ends, returning `None`). -/
def validaRatio (o : Option (Nat × Nat)) : Option ℚ :=
  o.bind (fun p => if 0 < p.2 then some ((p.1 : ℚ) / (p.2 : ℚ) * 100) else none)

/-- The `for padrao in self.patterns` loop: the three patterns are tried
in order; an in-range / valid match returns, an invalid one falls
through to the next pattern. -/
def aplicarPadroes (l : List Char) : Option ℚ :=
  match validaPct (searchPct ['%', '|'] l) with
  | some q => some q
  | none =>
    match validaPct (searchPct ['%'] l) with
    | some q => some q
    | none => validaRatio (searchRatio l)

/-- The preprocessing of `_extrair_percentual`: keep the portion after
the last carriage return, then after the last newline, then strip ANSI
color/style escapes. -/
def preprocessa (texto : String) : List Char :=
  stripAnsi (ultimoSegmento '\n' (ultimoSegmento '\r' texto.toList))

/-- `ProgressCapture._extrair_percentual` (main.py 515-535). -/
def extrair_percentual (texto : String) : Option ℚ :=
  aplicarPadroes (preprocessa texto)

/-! ### `ProgressCapture.write` (main.py 537-553): progress reporting -/

/-- The global-percentage formula of `ProgressCapture.write`:
`((self.indice + percentual_local / 100) / self.total_arquivos) * 100`. -/
def percentual_global (indice total_arquivos : ℕ) (percentual_local : ℚ) : ℚ :=
  ((indice : ℚ) + percentual_local / 100) / (total_arquivos : ℚ) * 100

/-- The progress-notification part of `ProgressCapture.write`: when
monitoring is enabled and the scanner extracts a local percentage from
the written chunk, the value passed to
`self.interface.atualizar_progresso` is
`max(0, min(percentual_global, 100))`; otherwise nothing is reported.
(Forwarding the chunk to the original stream, and the cancellation
check that follows the reporting, are modelled separately.) -/
def write_report (indice total_arquivos : ℕ) (monitorar : Bool) (texto : String) :
    Option ℚ :=
  if monitorar then
    (extrair_percentual texto).map
      (fun pl => max 0 (min (percentual_global indice total_arquivos pl) 100))
  else none

/-! ### `transcrever_com_feedback` (main.py 558-594): scoped channel swap -/

/-- The pair of process-wide output channels (`sys.stdout`,
`sys.stderr`), identified abstractly by tokens. -/
structure Canais where
  stdout : ℕ
  stderr : ℕ
deriving DecidableEq

/-- Outcome of the opaque inference call inside the `try` block:
normal return, an arbitrary exception, or `TranscricaoCancelada`
raised from an interceptor's `write`. -/
inductive Resultado (α : Type) where
  | ok (valor : α)
  | excecao
  | cancelada
deriving DecidableEq

/-- The channel discipline of `transcrever_com_feedback` (main.py
558-594): the original channels are saved, the interceptors are
installed (`sys.stdout = stdout_capture; sys.stderr = stderr_capture`),
the opaque inference call runs against the installed channels and ends
in one of the three outcomes, and the `finally` block runs on every
exit path, restoring the originals (`sys.stdout = original_stdout;
sys.stderr = original_stderr`).  The function returns the propagated
outcome together with the channel state after the scope exits. -/
def transcrever_com_feedback {α : Type} (originais interceptores : Canais)
    (inferencia : Canais → Resultado α) : Resultado α × Canais :=
  match inferencia interceptores with
  | .ok v => (.ok v, originais)
  | .excecao => (.excecao, originais)
  | .cancelada => (.cancelada, originais)

/-! ### `transcrever_arquivos` (main.py 400-458): per-file loop -/

/-- What happens while one file is being transcribed: either
`transcrever_com_feedback` returns a result, or it raises
`TranscricaoCancelada` mid-file. -/
inductive EventoArquivo where
  | concluido
  | cancelamento
deriving DecidableEq

/-- The pair of output files written by `processar_resultado` (main.py
596-613) for an input file with stem `stem`. -/
def pares (stem : String) : List String :=
  [stem ++ ".txt", stem ++ "_timestamps.txt"]

/-- The `for i, arquivo_atual in enumerate(...)` loop of
`transcrever_arquivos` (main.py 411-442), modelled over the list of
remaining file stems with the current index carried explicitly.
`flag i` is the value `self.cancelar_evento.is_set()` observed at the
top of iteration `i`; `evento i` is the outcome of transcribing file
`i`.  Returns the names of the output files written (in order), the
count of fully processed files (`arquivos_processados`), and the
`cancelado` flag. -/
def transcrever_loop (flag : ℕ → Bool) (evento : ℕ → EventoArquivo) :
    ℕ → List String → List String × ℕ × Bool
  | _, [] => ([], 0, false)
  | i, stem :: resto =>
    if flag i then ([], 0, true)
    else
      match evento i with
      | .cancelamento => ([], 0, true)
      | .concluido =>
        let r := transcrever_loop flag evento (i + 1) resto
        (pares stem ++ r.1, r.2.1 + 1, r.2.2)

/-- Final state of a run, from the `if cancelado: ... else: ...` tail
of `transcrever_arquivos` (main.py 444-468). -/
inductive EstadoExecucao where
  | concluida (processados : ℕ)
  | cancelada
deriving DecidableEq

/-- `transcrever_arquivos` after the model has been loaded: run the
per-file loop from index 0 and report the written output files together
with the final state. -/
def transcrever_arquivos (flag : ℕ → Bool) (evento : ℕ → EventoArquivo)
    (stems : List String) : List String × EstadoExecucao :=
  let r := transcrever_loop flag evento 0 stems
  (r.1, if r.2.2 then .cancelada else .concluida r.2.1)

/-! ### `iniciar_transcricao` (main.py 648-683): start-time validation -/

/-- The state consulted by `iniciar_transcricao`: the selected files
(each name paired with whether `arquivo.exists()` holds at start time)
and the `transcricao_em_andamento` flag. -/
structure EstadoInicio where
  arquivos : List (String × Bool)
  em_andamento : Bool

/-- The user-visible outcome of `iniciar_transcricao`. -/
inductive ResultadoInicio where
  | avisoSemArquivos
  | avisoJaEmAndamento
  | erroArquivosInexistentes (nomes : List String)
  | iniciada
deriving DecidableEq

/-- `iniciar_transcricao` (main.py 648-683).  Returns the outcome, the
new `transcricao_em_andamento` flag, and whether the worker thread was
started.  Model loading and transcription happen only on the worker
thread, so "thread started = false" entails that no model is loaded and
no file is transcribed. -/
def iniciar_transcricao (s : EstadoInicio) : ResultadoInicio × Bool × Bool :=
  if s.arquivos.isEmpty then (.avisoSemArquivos, s.em_andamento, false)
  else if s.em_andamento then (.avisoJaEmAndamento, s.em_andamento, false)
  else
    let inexistentes := (s.arquivos.filter (fun a => !a.2)).map Prod.fst
    if inexistentes.isEmpty then (.iniciada, true, true)
    else (.erroArquivosInexistentes inexistentes, s.em_andamento, false)

/-! ### `formatar_tempo_timestamp` (main.py 641-646) and the writers.

The source:
```
minutos = int(segundos // 60)
segundos_resto = segundos % 60
return f"{minutos:02d}:{segundos_resto:06.3f}"
```
Seconds values are modelled as exact rationals.  For a positive divisor
Python's float `//` is the floor and `%` is `s - 60 * ⌊s / 60⌋`; the
model is stated for non-negative times (`minutos` is rendered as a
natural number).  The `%.3f` formatting rounds to three decimals with
round half to even, as float formatting does. -/

/-- Round to the nearest integer, halves to the even neighbour. -/
def roundHalfEven (q : ℚ) : ℤ :=
  if q - ⌊q⌋ < 1/2 then ⌊q⌋
  else if 1/2 < q - ⌊q⌋ then ⌊q⌋ + 1
  else if ⌊q⌋ % 2 = 0 then ⌊q⌋ else ⌊q⌋ + 1

/-- `minutos = int(segundos // 60)`. -/
def minutosDe (segundos : ℚ) : ℕ :=
  (⌊segundos / 60⌋).toNat

/-- `segundos_resto = segundos % 60`. -/
def restoDe (segundos : ℚ) : ℚ :=
  segundos - 60 * (⌊segundos / 60⌋ : ℚ)

/-- The rounded milliseconds of the `ss.mmm` field. -/
def msDe (segundos : ℚ) : ℕ :=
  (roundHalfEven (restoDe segundos * 1000)).toNat

/-- `f"{segundos_resto:06.3f}"`: the seconds rendered with exactly three
decimal places, left-padded with zeros to width 6. -/
def campoSegundos (segundos : ℚ) : String :=
  padZeros 6 (natRepr (msDe segundos / 1000) ++ "." ++ padZeros 3 (natRepr (msDe segundos % 1000)))

/-- `f"{minutos:02d}"`. -/
def campoMinutos (segundos : ℚ) : String :=
  padZeros 2 (natRepr (minutosDe segundos))

/-- `formatar_tempo_timestamp` (main.py 641-646). -/
def formatar_tempo_timestamp (segundos : ℚ) : String :=
  campoMinutos segundos ++ ":" ++ campoSegundos segundos

/-- One transcription segment, as consumed by the writers
(`segment["start"]`, `segment["end"]`, `segment["text"]`). -/
structure Segment where
  inicio : ℚ
  fim : ℚ
  texto : String

/-- One output line of `salvar_txt_com_timestamps` (main.py 632):
`f"[{inicio} --> {fim}]  {texto}\n"` with `texto = segment['text'].strip()`. -/
def linhaSegmento (s : Segment) : String :=
  "[" ++ formatar_tempo_timestamp s.inicio ++ " --> " ++ formatar_tempo_timestamp s.fim
    ++ "]  " ++ pyStrip s.texto ++ "\n"

/-- `salvar_txt_com_timestamps` (main.py 622-632): the contents of the
file after the loop of `f.write` calls (mode `"w"`, so previous
contents are discarded). -/
def salvar_txt_com_timestamps (segments : List Segment) : String :=
  segments.foldl (fun acc s => acc ++ linhaSegmento s) ""

/-- `salvar_txt_sem_timestamps` (main.py 634-639): contents of the file
after the write (mode `"w"`; an empty cleaned text writes nothing,
leaving the truncated — empty — file). -/
def salvar_txt_sem_timestamps (texto : String) : String :=
  if pyStrip texto = "" then "" else pyStrip texto ++ "\n"

/-- Opening a file in mode `"w"` and writing `conteudo` replaces any
previous contents. -/
def escreveModoW (conteudo _anterior : String) : String :=
  conteudo

/-! ### `is_already_running` (launcher.py 38-69): single-instance lock -/

/-- The environment consulted by the launcher's single-instance check:
whether the lock file exists, its parsed contents (`none` when
`int(f.read().strip())` raises), whether `psutil` imported, which pids
name live processes (`psutil.pid_exists`, or success of
`os.kill(pid, 0)` in the fallback), and the process name lookup
(`none` when `psutil.Process(pid)` / `.name()` raises `NoSuchProcess`
or `AccessDenied`). -/
structure AmbienteLauncher where
  lockExiste : Bool
  conteudoLock : Option ℕ
  psutilDisponivel : Bool
  pidExiste : ℕ → Bool
  nomeProcesso : ℕ → Option String

/-- `'WhisperPGE' in proc.name()`. -/
def nomeEhWhisperPGE (nome : String) : Bool :=
  containsSub "WhisperPGE".toList nome.toList

/-- `is_already_running` (launcher.py 38-69).  Returns
(another instance is reported running, the lock file was removed).
The `INSTANCE_LOCK_FILE.unlink()` call is assumed not to raise. -/
def is_already_running (env : AmbienteLauncher) : Bool × Bool :=
  if !env.lockExiste then (false, false)
  else
    match env.conteudoLock with
    | none => (false, false)
    | some pid =>
      if env.psutilDisponivel then
        if env.pidExiste pid then
          match env.nomeProcesso pid with
          | some nome => if nomeEhWhisperPGE nome then (true, false) else (false, true)
          | none => (false, true)
        else (false, true)
      else
        if env.pidExiste pid then (true, false) else (false, true)

/-! ## Claim theorems -/

/-- Claim C4 (confirmed): on every exit path of the per-file
transcription scope — normal completion, an exception raised by the
inference call, or a cancellation raised from the interceptor — the
original output channels are restored to the values held before the
interceptors were installed, and the outcome is propagated unchanged. -/
theorem C4_canais_restaurados {α : Type} (originais interceptores : Canais)
    (inferencia : Canais → Resultado α) :
    (transcrever_com_feedback originais interceptores inferencia).2 = originais ∧
    (transcrever_com_feedback originais interceptores inferencia).1
      = inferencia interceptores := by
  cases h : inferencia interceptores <;>
    simp [transcrever_com_feedback, h]

/-- Claim C5 (confirmed): at a loop boundary where the cancellation flag
is observed set, no further file starts and nothing more is written; a
cancellation raised mid-file discards that file's output entirely; a
file completed before any cancellation keeps its pair of output files in
the final output list; and the concrete 3-file job whose flag becomes
set after file 1 completes ends in the cancelled state with exactly the
pair of output files of file 1. -/
theorem C5_cancelamento :
    (∀ (flag : ℕ → Bool) (evento : ℕ → EventoArquivo) (i : ℕ) (stems : List String),
      flag i = true →
        (transcrever_loop flag evento i stems).1 = [] ∧
        (stems ≠ [] → (transcrever_loop flag evento i stems).2.2 = true)) ∧
    (∀ (flag : ℕ → Bool) (evento : ℕ → EventoArquivo) (i : ℕ) (stem : String)
        (resto : List String),
      flag i = false → evento i = .cancelamento →
        transcrever_loop flag evento i (stem :: resto) = ([], 0, true)) ∧
    (∀ (flag : ℕ → Bool) (evento : ℕ → EventoArquivo) (i : ℕ) (stem : String)
        (resto : List String),
      flag i = false → evento i = .concluido →
        (transcrever_loop flag evento i (stem :: resto)).1
          = pares stem ++ (transcrever_loop flag evento (i + 1) resto).1) ∧
    transcrever_arquivos (fun i => decide (1 ≤ i)) (fun _ => .concluido)
        ["f1", "f2", "f3"]
      = (["f1.txt", "f1_timestamps.txt"], .cancelada) := by
  refine ⟨?_, ?_, ?_, ?_⟩
  · intro flag evento i stems hflag
    cases stems with
    | nil => exact ⟨rfl, fun h => absurd rfl h⟩
    | cons stem resto =>
      constructor
      · simp [transcrever_loop, hflag]
      · intro _
        simp [transcrever_loop, hflag]
  · intro flag evento i stem resto hflag hev
    simp [transcrever_loop, hflag, hev]
  · intro flag evento i stem resto hflag hev
    simp [transcrever_loop, hflag, hev]
  · decide

/-- Claim C5 witness: the general parts of `C5_cancelamento`
instantiated at concrete inputs, with their hypotheses discharged. -/
theorem C5_cancelamento_witness :
    (transcrever_loop (fun i => decide (1 ≤ i)) (fun _ => .concluido) 1
        ["f2", "f3"]).1 = [] ∧
    transcrever_loop (fun _ => false) (fun _ => .cancelamento) 0 ["g"]
      = ([], 0, true) := by
  constructor
  · exact (C5_cancelamento.1 (fun i => decide (1 ≤ i)) (fun _ => .concluido) 1
      ["f2", "f3"] (by decide)).1
  · exact C5_cancelamento.2.1 (fun _ => false) (fun _ => .cancelamento) 0 "g" []
      (by decide) (by decide)

/-- Claim C6 (confirmed): with at least one selected file missing, the
start validation reports a single error listing the names of all
missing files, the job never transitions to running, and the worker
thread (which alone loads the model and transcribes) is not started;
in particular `[A (exists), B (missing), C (missing)]` reports both `B`
and `C`. -/
theorem C6_validacao (s : EstadoInicio)
    (hne : s.arquivos ≠ [])
    (hidle : s.em_andamento = false)
    (hmiss : ∃ a ∈ s.arquivos, a.2 = false) :
    (iniciar_transcricao s).1
      = .erroArquivosInexistentes
          ((s.arquivos.filter (fun a => !a.2)).map Prod.fst) ∧
    (∀ a ∈ s.arquivos, a.2 = false →
      a.1 ∈ (s.arquivos.filter (fun a => !a.2)).map Prod.fst) ∧
    (iniciar_transcricao s).2.1 = false ∧
    (iniciar_transcricao s).2.2 = false ∧
    iniciar_transcricao ⟨[("A", true), ("B", false), ("C", false)], false⟩
      = (.erroArquivosInexistentes ["B", "C"], false, false) := by
  obtain ⟨a, ha, ha2⟩ := hmiss
  have hem : s.arquivos.isEmpty = false := by
    cases h : s.arquivos with
    | nil => exact absurd h hne
    | cons x xs => simp [h]
  have hmem : a ∈ s.arquivos.filter (fun a => !a.2) := by
    simp [List.mem_filter, ha, ha2]
  have hfil : ((s.arquivos.filter (fun a => !a.2)).map Prod.fst).isEmpty = false := by
    cases h : s.arquivos.filter (fun a => !a.2) with
    | nil => rw [h] at hmem; exact absurd hmem (List.not_mem_nil a)
    | cons x xs => simp [h]
  refine ⟨?_, ?_, ?_, ?_, ?_⟩
  · simp [iniciar_transcricao, hem, hidle, hfil]
  · intro b hb hb2
    exact List.mem_map_of_mem Prod.fst (by simp [List.mem_filter, hb, hb2])
  · simp [iniciar_transcricao, hem, hidle, hfil]
  · simp [iniciar_transcricao, hem, hidle, hfil]
  · decide

/-- Claim C6 witness: `C6_validacao` applied to the concrete state with
files `A` (present), `B` and `C` (missing). -/
theorem C6_validacao_witness :
    (iniciar_transcricao ⟨[("A", true), ("B", false), ("C", false)], false⟩).1
      = .erroArquivosInexistentes ["B", "C"] ∧
    (iniciar_transcricao ⟨[("A", true), ("B", false), ("C", false)], false⟩).2.1
      = false := by
  have h := C6_validacao ⟨[("A", true), ("B", false), ("C", false)], false⟩
    (by decide) (by decide) ⟨("B", false), by decide, by decide⟩
  exact ⟨by simpa using h.1, h.2.2.1⟩

/-- Claim C8 (confirmed): the plain-text writer produces an empty file
when the input is empty or whitespace-only after trimming, and otherwise
exactly the trimmed text followed by one trailing newline; writing
happens in mode `"w"`, so re-running with the same input yields the same
file contents whatever was there before. -/
theorem C8_writer_plano (texto : String) (h : pyStrip texto ≠ "") :
    salvar_txt_sem_timestamps texto = pyStrip texto ++ "\n" ∧
    (∀ t : String, pyStrip t = "" → salvar_txt_sem_timestamps t = "") ∧
    (∀ anterior₁ anterior₂ : String,
      escreveModoW (salvar_txt_sem_timestamps texto) anterior₁
        = escreveModoW (salvar_txt_sem_timestamps texto) anterior₂) ∧
    salvar_txt_sem_timestamps "  \n\t " = "" ∧
    salvar_txt_sem_timestamps " ola \n" = "ola" ++ "\n" := by
  refine ⟨?_, ?_, fun _ _ => rfl, by decide, by decide⟩
  · simp [salvar_txt_sem_timestamps, h]
  · intro t ht
    simp [salvar_txt_sem_timestamps, ht]

/-- Claim C8 witness: `C8_writer_plano` applied to a concrete non-blank
input. -/
theorem C8_writer_plano_witness :
    pyStrip " ola \n" ≠ "" ∧
    salvar_txt_sem_timestamps " ola \n" = pyStrip " ola \n" ++ "\n" :=
  ⟨by decide, (C8_writer_plano " ola \n" (by decide)).1⟩

/-- Claim C3 (confirmed): whenever the monitored interceptor extracts a
local percentage from a written chunk, the value reported to the UI is
`((fileIndex + localPercent / 100) / totalFiles) * 100` clamped to
`[0, 100]`; every reported value lies in `[0, 100]`; and for
`totalFiles = 4`, `fileIndex = 1`, local percent `50` the global
percentage is `37.5`. -/
theorem C3_progresso_global (indice total : ℕ) (texto : String) (pl : ℚ)
    (h : extrair_percentual texto = some pl) :
    write_report indice total true texto
      = some (max 0 (min (percentual_global indice total pl) 100)) ∧
    (∀ q ∈ write_report indice total true texto, 0 ≤ q ∧ q ≤ 100) ∧
    percentual_global 1 4 50 = 75/2 ∧
    write_report 1 4 true "50%|" = some (75/2) := by
  refine ⟨?_, ?_, ?_, ?_⟩
  · simp [write_report, h]
  · intro q hq
    simp only [write_report, if_pos, h, Option.map_some', Option.mem_def,
      Option.some_inj] at hq
    rw [← hq]
    exact ⟨le_max_left _ _, max_le (by norm_num) (min_le_right _ _)⟩
  · simp only [percentual_global]
    norm_num
  · rw [write_report, show extrair_percentual "50%|" = some 50 from by decide]
    simp only [if_pos, Option.map_some', percentual_global]
    norm_num

/-- Claim C3 witness: `C3_progresso_global` applied to the chunk
`"61%"` (local percentage 61) with index 2 of 5 files. -/
theorem C3_progresso_global_witness :
    extrair_percentual "61%" = some 61 ∧
    write_report 2 5 true "61%"
      = some (max 0 (min (percentual_global 2 5 61) 100)) :=
  ⟨by decide, (C3_progresso_global 2 5 "61%" 61 (by decide)).1⟩

/-! ### Scanner lemmas: preprocessing only keeps characters of the
input, and none of the three patterns can match digit-free text. -/

theorem ultimoSegmento_mem (sep : Char) (l : List Char) :
    ∀ c ∈ ultimoSegmento sep l, c ∈ l := by
  intro c hc
  rw [ultimoSegmento, List.mem_reverse] at hc
  exact List.mem_reverse.mp (List.takeWhile_subset _ hc)

theorem scanAnsiBody_mem :
    ∀ {l rem : List Char}, scanAnsiBody l = some rem → ∀ c ∈ rem, c ∈ l := by
  intro l
  induction l with
  | nil => intro rem h; simp [scanAnsiBody] at h
  | cons a rest ih =>
    intro rem h c hc
    rw [scanAnsiBody] at h
    split at h
    · cases h
      exact List.mem_cons_of_mem _ hc
    · split at h
      · exact List.mem_cons_of_mem _ (ih h c hc)
      · cases h

theorem stripAnsiAux_mem :
    ∀ (fuel : ℕ) (l : List Char), ∀ c ∈ stripAnsiAux fuel l, c ∈ l := by
  intro fuel
  induction fuel with
  | zero => intro l c hc; rw [stripAnsiAux] at hc; exact hc
  | succ f ih =>
    intro l c hc
    cases l with
    | nil => rw [stripAnsiAux] at hc; exact absurd hc (List.not_mem_nil c)
    | cons a rest =>
      rw [stripAnsiAux] at hc
      split at hc
      · next hcond =>
        cases hscan : scanAnsiBody rest.tail with
        | some rem =>
          rw [hscan] at hc
          have hmem : c ∈ rest.tail := scanAnsiBody_mem hscan c (ih rem c hc)
          exact List.mem_cons_of_mem _ (List.mem_of_mem_tail hmem)
        | none =>
          rw [hscan] at hc
          rcases List.mem_cons.mp hc with h | h
          · exact h ▸ List.mem_cons_self _ _
          · exact List.mem_cons_of_mem _ (ih rest c h)
      · rcases List.mem_cons.mp hc with h | h
        · exact h ▸ List.mem_cons_self _ _
        · exact List.mem_cons_of_mem _ (ih rest c h)

theorem stripAnsi_mem (l : List Char) : ∀ c ∈ stripAnsi l, c ∈ l := by
  intro c hc
  rw [stripAnsi] at hc
  exact stripAnsiAux_mem _ _ c hc

theorem preprocessa_mem (texto : String) :
    ∀ c ∈ preprocessa texto, c ∈ texto.toList := by
  intro c hc
  rw [preprocessa] at hc
  have h1 : c ∈ ultimoSegmento '\n' (ultimoSegmento '\r' texto.toList) :=
    stripAnsi_mem _ c hc
  exact ultimoSegmento_mem '\r' _ c (ultimoSegmento_mem '\n' _ c h1)

theorem tryDigits_none {k : ℕ} (hk : k ≠ 0) {l : List Char}
    (h : ∀ c ∈ l, c.isDigit = false) : tryDigits k l = none := by
  cases l with
  | nil =>
    cases k with
    | zero => exact absurd rfl hk
    | succ k' => simp [tryDigits]
  | cons a rest =>
    cases k with
    | zero => exact absurd rfl hk
    | succ k' =>
      have ha : a.isDigit = false := h a (List.mem_cons_self _ _)
      simp [tryDigits, ha]

theorem matchPctAt_none (lits : List Char) {l : List Char}
    (h : ∀ c ∈ l, c.isDigit = false) : matchPctAt lits l = none := by
  simp [matchPctAt, pctCandidate, tryDigits_none (by decide : (3:ℕ) ≠ 0) h,
    tryDigits_none (by decide : (2:ℕ) ≠ 0) h,
    tryDigits_none (by decide : (1:ℕ) ≠ 0) h]

theorem searchPct_none (lits : List Char) :
    ∀ l : List Char, (∀ c ∈ l, c.isDigit = false) → searchPct lits l = none := by
  intro l
  induction l with
  | nil => intro _; rfl
  | cons a rest ih =>
    intro h
    rw [searchPct, matchPctAt_none lits h]
    exact ih (fun c hc => h c (List.mem_cons_of_mem _ hc))

theorem matchRatioAt_none {l : List Char}
    (h : ∀ c ∈ l, c.isDigit = false) : matchRatioAt l = none := by
  simp [matchRatioAt, ratioCandidate, tryDigits_none (by decide : (3:ℕ) ≠ 0) h,
    tryDigits_none (by decide : (2:ℕ) ≠ 0) h,
    tryDigits_none (by decide : (1:ℕ) ≠ 0) h]

theorem searchRatio_none :
    ∀ l : List Char, (∀ c ∈ l, c.isDigit = false) → searchRatio l = none := by
  intro l
  induction l with
  | nil => intro _; rfl
  | cons a rest ih =>
    intro h
    rw [searchRatio, matchRatioAt_none h]
    exact ih (fun c hc => h c (List.mem_cons_of_mem _ hc))

theorem aplicarPadroes_none {l : List Char}
    (h : ∀ c ∈ l, c.isDigit = false) : aplicarPadroes l = none := by
  rw [aplicarPadroes, searchPct_none _ _ h, searchPct_none _ _ h,
    searchRatio_none _ h]
  rfl

theorem validaPct_none_iff (o : Option Nat) :
    validaPct o = none ↔ ∀ v, o = some v → 100 < v := by
  cases o with
  | none => simp [validaPct]
  | some v =>
    by_cases hv : v ≤ 100
    · simp [validaPct, hv]
    · simp [validaPct, hv]
      omega

theorem validaRatio_none_iff (o : Option (Nat × Nat)) :
    validaRatio o = none ↔ ∀ p, o = some p → p.2 = 0 := by
  cases o with
  | none => simp [validaRatio]
  | some p =>
    by_cases ht : 0 < p.2
    · have hne : validaRatio (some p) ≠ none := by
        simp [validaRatio, ht]
      constructor
      · intro h
        exact absurd h hne
      · intro h
        have h2 := h p rfl
        omega
    · have hnone : validaRatio (some p) = none := by
        simp [validaRatio, ht]
      constructor
      · intro _ q hq
        cases hq
        omega
      · intro _
        exact hnone

theorem aplicarPadroes_none_iff (l : List Char) :
    aplicarPadroes l = none ↔
      validaPct (searchPct ['%', '|'] l) = none ∧
      validaPct (searchPct ['%'] l) = none ∧
      validaRatio (searchRatio l) = none := by
  rw [aplicarPadroes]
  cases hv1 : validaPct (searchPct ['%', '|'] l) <;>
    cases hv2 : validaPct (searchPct ['%'] l) <;>
    cases hv3 : validaRatio (searchRatio l) <;> simp

/-- Claim C1 counterexample: the chunk `"137%|"` contains `"37%|"` in
its (only, hence last) segment, yet the scanner yields no signal — the
first pattern's leftmost match is `137`, which fails the range check,
and the remaining patterns find nothing — rather than `37.0` as the
claim requires. -/
theorem C1_contraexemplo :
    containsSub "37%|".toList (preprocessa "137%|") = true ∧
    extrair_percentual "137%|" = none := by
  constructor <;> decide

/-- Claim C1 (corrected): the scanner keeps only the last segment after
splitting on carriage returns and then newlines, strips ANSI
color/style escapes, and applies the three patterns in order, returning
the value of the first pattern whose leftmost match passes validation;
a chunk whose preprocessed text's leftmost int-percent-bar match is
`37` yields `37.0` (in particular `"37%|"` itself does), `"12/50"`
yields `24.0`, and text with no digits yields no signal. -/
theorem C1_scanner (texto : String)
    (h37 : searchPct ['%', '|'] (preprocessa texto) = some 37) :
    extrair_percentual texto
      = aplicarPadroes
          (stripAnsi (ultimoSegmento '\n' (ultimoSegmento '\r' texto.toList))) ∧
    extrair_percentual texto = some 37 ∧
    (∀ t : String, (∀ c ∈ t.toList, c.isDigit = false) →
      extrair_percentual t = none) ∧
    extrair_percentual "37%|" = some 37 ∧
    extrair_percentual "12/50" = some 24 := by
  refine ⟨rfl, ?_, ?_, by decide, ?_⟩
  · simp only [extrair_percentual, aplicarPadroes, h37, validaPct,
      Option.some_bind]
    norm_num
  · intro t ht
    rw [extrair_percentual]
    exact aplicarPadroes_none (fun c hc => ht c (preprocessa_mem t c hc))
  · simp only [extrair_percentual]
    rw [show preprocessa "12/50" = "12/50".toList from by decide]
    simp only [aplicarPadroes]
    rw [show searchPct ['%', '|'] "12/50".toList = none from by decide]
    rw [show searchPct ['%'] "12/50".toList = none from by decide]
    rw [show searchRatio "12/50".toList = some (12, 50) from by decide]
    simp only [validaPct, validaRatio, Option.bind]
    norm_num

/-- Claim C1 witness: `C1_scanner` applied to the chunk `"37%|"`. -/
theorem C1_scanner_witness :
    searchPct ['%', '|'] (preprocessa "37%|") = some 37 ∧
    extrair_percentual "37%|" = some 37 :=
  ⟨by decide, (C1_scanner "37%|" (by decide)).2.1⟩

/-- Claim C2 counterexample: the ratio form is not range-checked, so
`"300/100"` yields `300.0` instead of the no-signal the claim
requires for percentages outside `[0, 100]`. -/
theorem C2_contraexemplo : extrair_percentual "300/100" = some 300 := by
  simp only [extrair_percentual]
  rw [show preprocessa "300/100" = "300/100".toList from by decide]
  simp only [aplicarPadroes]
  rw [show searchPct ['%', '|'] "300/100".toList = none from by decide]
  rw [show searchPct ['%'] "300/100".toList = none from by decide]
  rw [show searchRatio "300/100".toList = some (300, 100) from by decide]
  simp only [validaPct, validaRatio, Option.bind]
  norm_num

/-- Claim C2 (corrected): the scanner returns no signal exactly when
every pattern fails to produce an accepted value: the two int-percent
patterns' leftmost matches (if any) are out of range, and the ratio
pattern's leftmost match (if any) has a zero denominator.  The ratio
form is not range-checked (see the counterexample); a zero-denominator
ratio such as `"5/0"` and digit-free text yield no signal. -/
theorem C2_sem_sinal (texto : String) :
    (extrair_percentual texto = none ↔
      (∀ v, searchPct ['%', '|'] (preprocessa texto) = some v → 100 < v) ∧
      (∀ v, searchPct ['%'] (preprocessa texto) = some v → 100 < v) ∧
      (∀ p, searchRatio (preprocessa texto) = some p → p.2 = 0)) ∧
    extrair_percentual "5/0" = none ∧
    extrair_percentual "sem digitos!" = none := by
  refine ⟨?_, by decide, by decide⟩
  simp only [extrair_percentual]
  rw [aplicarPadroes_none_iff, validaPct_none_iff, validaPct_none_iff,
    validaRatio_none_iff]

/-- Claim C2 witness: the characterization of `C2_sem_sinal`
instantiated at the chunk `"5/0"`, whose only match is a
zero-denominator ratio. -/
theorem C2_sem_sinal_witness :
    extrair_percentual "5/0" = none ↔
      (∀ v, searchPct ['%', '|'] (preprocessa "5/0") = some v → 100 < v) ∧
      (∀ v, searchPct ['%'] (preprocessa "5/0") = some v → 100 < v) ∧
      (∀ p, searchRatio (preprocessa "5/0") = some p → p.2 = 0) :=
  (C2_sem_sinal "5/0").1

/-- Claim C9 counterexample: with `psutil` unavailable, a lock file
owned by live process 42 named `"bash"` — not recognizable as this
application — still makes the launcher refuse to start, and the lock
file is not removed. -/
theorem C9_contraexemplo :
    (is_already_running
      { lockExiste := true, conteudoLock := some 42, psutilDisponivel := false,
        pidExiste := fun p => decide (p = 42),
        nomeProcesso := fun _ => some "bash" }).1 = true ∧
    nomeEhWhisperPGE "bash" = false ∧
    (is_already_running
      { lockExiste := true, conteudoLock := some 42, psutilDisponivel := false,
        pidExiste := fun p => decide (p = 42),
        nomeProcesso := fun _ => some "bash" }).2 = false := by
  refine ⟨by decide, by decide, by decide⟩

/-- Claim C9 (corrected): with a readable lock, the launcher refuses to
start a second instance precisely when `psutil` is available and the
stored pid names a live process whose name contains `WhisperPGE`, or
when `psutil` is unavailable and the stored pid names any live process
(no application check); whenever it does not refuse, the lock file is
removed and the new instance proceeds.  A missing lock file, or one
whose contents cannot be parsed, lets the new instance proceed without
removing the lock. -/
theorem C9_instancia_unica (env : AmbienteLauncher) (pid : ℕ)
    (hlock : env.lockExiste = true) (hpid : env.conteudoLock = some pid) :
    (env.psutilDisponivel = true →
      ((is_already_running env).1 = true ↔
        env.pidExiste pid = true ∧
          ∃ nome, env.nomeProcesso pid = some nome ∧
            nomeEhWhisperPGE nome = true)) ∧
    (env.psutilDisponivel = false →
      ((is_already_running env).1 = true ↔ env.pidExiste pid = true)) ∧
    ((is_already_running env).1 = false ↔ (is_already_running env).2 = true) ∧
    (∀ e : AmbienteLauncher, e.lockExiste = false →
      is_already_running e = (false, false)) ∧
    (∀ e : AmbienteLauncher, e.lockExiste = true → e.conteudoLock = none →
      is_already_running e = (false, false)) := by
  have hrun : is_already_running env
      = if env.psutilDisponivel then
          if env.pidExiste pid then
            match env.nomeProcesso pid with
            | some nome => if nomeEhWhisperPGE nome then (true, false) else (false, true)
            | none => (false, true)
          else (false, true)
        else
          if env.pidExiste pid then (true, false) else (false, true) := by
    simp [is_already_running, hlock, hpid]
  refine ⟨?_, ?_, ?_, ?_, ?_⟩
  · intro hps
    rw [hrun, if_pos hps]
    by_cases hpe : env.pidExiste pid
    · rw [if_pos hpe]
      cases hnm : env.nomeProcesso pid with
      | some nome =>
        by_cases hw : nomeEhWhisperPGE nome
        · simp [hw, hpe, hnm]
        · simp [hw, hpe, hnm]
      | none => simp [hpe, hnm]
    · simp [hpe]
  · intro hps
    rw [hrun, if_neg (by simp [hps])]
    by_cases hpe : env.pidExiste pid
    · simp [hpe]
    · simp [hpe]
  · rw [hrun]
    by_cases hps : env.psutilDisponivel
    · rw [if_pos hps]
      by_cases hpe : env.pidExiste pid
      · rw [if_pos hpe]
        cases hnm : env.nomeProcesso pid with
        | some nome => by_cases hw : nomeEhWhisperPGE nome <;> simp [hw]
        | none => simp
      · simp [hpe]
    · rw [if_neg hps]
      by_cases hpe : env.pidExiste pid <;> simp [hpe]
  · intro e he
    rw [is_already_running, he]
    rfl
  · intro e he hc
    rw [is_already_running, he, hc]
    rfl

/-- Claim C9 witness: `C9_instancia_unica` for a concrete environment:
`psutil` available, lock owned by live pid 7 whose process name is
`"WhisperPGE.exe"`, so the second launch is refused. -/
theorem C9_instancia_unica_witness :
    (is_already_running
      { lockExiste := true, conteudoLock := some 7, psutilDisponivel := true,
        pidExiste := fun p => decide (p = 7),
        nomeProcesso := fun _ => some "WhisperPGE.exe" }).1 = true := by
  have h := (C9_instancia_unica
    { lockExiste := true, conteudoLock := some 7, psutilDisponivel := true,
      pidExiste := fun p => decide (p = 7),
      nomeProcesso := fun _ => some "WhisperPGE.exe" } 7 rfl rfl).1 rfl
  exact h.mpr ⟨by decide, "WhisperPGE.exe", rfl, by decide⟩

/-! ### Formatter lemmas: decimal-rendering lengths and the bounds of
the `mm`/`ss.mmm` fields. -/

theorem natReprAux_zero (fuel : ℕ) : natReprAux fuel 0 = [] := by
  cases fuel <;> simp [natReprAux]

theorem natReprAux_len_le :
    ∀ (k fuel n : ℕ), n < 10 ^ k → (natReprAux fuel n).length ≤ k := by
  intro k
  induction k with
  | zero =>
    intro fuel n hn
    have h0 : n = 0 := by simpa using hn
    subst h0
    rw [natReprAux_zero]
    simp
  | succ k ih =>
    intro fuel n hn
    cases fuel with
    | zero => simp [natReprAux]
    | succ f =>
      by_cases h0 : n = 0
      · subst h0
        simp [natReprAux]
      · rw [natReprAux, if_neg h0, List.length_append]
        have hd : n / 10 < 10 ^ k := by
          rw [Nat.div_lt_iff_lt_mul (by norm_num)]

          calc n < 10 ^ (k + 1) := hn
            _ = 10 ^ k * 10 := by ring
        have hlen := ih f (n / 10) hd
        simp only [List.length_cons, List.length_nil]
        omega

theorem natReprAux_len_ge :
    ∀ (k n fuel : ℕ), 10 ^ k ≤ n → k < fuel → k + 1 ≤ (natReprAux fuel n).length := by
  intro k
  induction k with
  | zero =>
    intro n fuel h1 h2
    cases fuel with
    | zero => omega
    | succ f =>
      have h0 : n ≠ 0 := by
        have := h1
        simp at this
        omega
      rw [natReprAux, if_neg h0, List.length_append]
      simp
  | succ k ih =>
    intro n fuel h1 h2
    cases fuel with
    | zero => omega
    | succ f =>
      have hp : 1 ≤ 10 ^ (k + 1) := Nat.one_le_pow _ _ (by norm_num)
      have h0 : n ≠ 0 := by omega
      rw [natReprAux, if_neg h0, List.length_append]
      have hd : 10 ^ k ≤ n / 10 := by
        rw [Nat.le_div_iff_mul_le (by norm_num)]
        calc 10 ^ k * 10 = 10 ^ (k + 1) := by ring
          _ ≤ n := h1
      have hlen := ih (n / 10) f hd (by omega)
      simp only [List.length_cons, List.length_nil]
      omega

theorem natRepr_len_le {k n : ℕ} (hk : 1 ≤ k) (hn : n < 10 ^ k) :
    (natRepr n).length ≤ k := by
  rw [natRepr]
  by_cases h0 : n = 0
  · rw [if_pos h0]
    simpa using hk
  · rw [if_neg h0]
    show (natReprAux n n).length ≤ k
    exact natReprAux_len_le k n n hn

theorem natRepr_len_ge {k n : ℕ} (h : 10 ^ k ≤ n) :
    k + 1 ≤ (natRepr n).length := by
  have hp : 1 ≤ 10 ^ k := Nat.one_le_pow _ _ (by norm_num)
  have h0 : n ≠ 0 := by omega
  rw [natRepr, if_neg h0]
  show k + 1 ≤ (natReprAux n n).length
  have hkn : k < n := by
    have := Nat.lt_pow_self (by norm_num : 1 < 10) k
    omega
  exact natReprAux_len_ge k n n h hkn

theorem natRepr_len_pos (n : ℕ) : 1 ≤ (natRepr n).length := by
  by_cases h0 : n = 0
  · subst h0
    decide
  · have := natRepr_len_ge (k := 0) (n := n) (by omega)
    omega

theorem padZeros_length (w : ℕ) (s : String) :
    (padZeros w s).length = (w - s.length) + s.length := by
  rw [padZeros, String.length_append]
  have h1 : (String.mk (List.replicate (w - s.length) '0')).length
      = w - s.length := by
    show (List.replicate (w - s.length) '0').length = w - s.length
    rw [List.length_replicate]
  rw [h1]

theorem restoDe_nonneg (s : ℚ) : 0 ≤ restoDe s := by
  rw [restoDe]
  have h : (⌊s / 60⌋ : ℚ) ≤ s / 60 := Int.floor_le _
  have h2 : (60 : ℚ) * (⌊s / 60⌋ : ℚ) ≤ 60 * (s / 60) :=
    mul_le_mul_of_nonneg_left h (by norm_num)
  have h3 : (60 : ℚ) * (s / 60) = s := by ring
  linarith

theorem restoDe_lt (s : ℚ) : restoDe s < 60 := by
  rw [restoDe]
  have h : s / 60 < (⌊s / 60⌋ : ℚ) + 1 := Int.lt_floor_add_one _
  have h2 : (60 : ℚ) * (s / 60) < 60 * ((⌊s / 60⌋ : ℚ) + 1) := by
    have := mul_lt_mul_of_pos_left h (by norm_num : (0 : ℚ) < 60)
    linarith
  have h3 : (60 : ℚ) * (s / 60) = s := by ring
  linarith

theorem le_roundHalfEven (q : ℚ) : ⌊q⌋ ≤ roundHalfEven q := by
  rw [roundHalfEven]
  split
  · exact le_refl _
  · split
    · omega
    · split <;> omega

theorem roundHalfEven_le (q : ℚ) : roundHalfEven q ≤ ⌊q⌋ + 1 := by
  rw [roundHalfEven]
  split
  · omega
  · split
    · exact le_refl _
    · split <;> omega

theorem msDe_le (s : ℚ) : msDe s ≤ 60000 := by
  rw [msDe]
  have h1 : restoDe s * 1000 < 60000 := by
    have := restoDe_lt s
    linarith
  have h2 : ⌊restoDe s * 1000⌋ < 60000 := Int.floor_lt.mpr (by exact_mod_cast h1)
  have h3 : roundHalfEven (restoDe s * 1000) ≤ 60000 :=
    le_trans (roundHalfEven_le _) (by omega)
  exact Int.toNat_le.mpr h3

theorem campoSegundos_length (s : ℚ) : (campoSegundos s).length = 6 := by
  rw [campoSegundos, padZeros_length, String.length_append,
    String.length_append, padZeros_length]
  have hms := msDe_le s
  have hss_le : (natRepr (msDe s / 1000)).length ≤ 2 :=
    natRepr_len_le (by norm_num) (by omega)
  have hss_ge := natRepr_len_pos (msDe s / 1000)
  have hmmm_le : (natRepr (msDe s % 1000)).length ≤ 3 :=
    natRepr_len_le (by norm_num) (by omega)
  have hmmm_ge := natRepr_len_pos (msDe s % 1000)
  have hdot : ("." : String).length = 1 := rfl
  omega

theorem campoMinutos_length (s : ℚ) : 2 ≤ (campoMinutos s).length := by
  rw [campoMinutos, padZeros_length]
  have := natRepr_len_pos (minutosDe s)
  omega

theorem salvar_eq_join (segs : List Segment) :
    salvar_txt_com_timestamps segs = String.join (segs.map linhaSegmento) := by
  show segs.foldl (fun acc s => acc ++ linhaSegmento s) ""
      = (segs.map linhaSegmento).foldl (fun r s => r ++ s) ""
  rw [List.foldl_map]

/-- Evaluation helper: once the floor of `s / 60` and the rounded
milliseconds are known, the formatted timestamp is a concrete string
computation. -/
theorem formatar_eval (s : ℚ) (m ms : ℕ)
    (h1 : ⌊s / 60⌋ = (m : ℤ)) (h2 : roundHalfEven (restoDe s * 1000) = (ms : ℤ)) :
    formatar_tempo_timestamp s
      = padZeros 2 (natRepr m) ++ ":"
        ++ padZeros 6 (natRepr (ms / 1000) ++ "." ++ padZeros 3 (natRepr (ms % 1000))) := by
  rw [formatar_tempo_timestamp, campoMinutos, campoSegundos, minutosDe, msDe,
    h1, h2]
  simp only [Int.toNat_natCast]

theorem formatar_122 : formatar_tempo_timestamp 122 = "02:02.000" := by
  have hf : ⌊(122 : ℚ) / 60⌋ = ((2 : ℕ) : ℤ) := by
    norm_num [Int.floor_eq_iff]
  have hr : restoDe (122 : ℚ) * 1000 = 2000 := by
    rw [restoDe, hf]
    norm_num
  have h2 : roundHalfEven (restoDe (122 : ℚ) * 1000) = ((2000 : ℕ) : ℤ) := by
    rw [hr, roundHalfEven, show ⌊(2000 : ℚ)⌋ = 2000 from by norm_num [Int.floor_eq_iff]]
    norm_num
  rw [formatar_eval 122 2 2000 hf h2]
  decide

theorem formatar_124 : formatar_tempo_timestamp 124 = "02:04.000" := by
  have hf : ⌊(124 : ℚ) / 60⌋ = ((2 : ℕ) : ℤ) := by
    norm_num [Int.floor_eq_iff]
  have hr : restoDe (124 : ℚ) * 1000 = 4000 := by
    rw [restoDe, hf]
    norm_num
  have h2 : roundHalfEven (restoDe (124 : ℚ) * 1000) = ((4000 : ℕ) : ℤ) := by
    rw [hr, roundHalfEven, show ⌊(4000 : ℚ)⌋ = 4000 from by norm_num [Int.floor_eq_iff]]
    norm_num
  rw [formatar_eval 124 2 4000 hf h2]
  decide

theorem formatar_599999e4 :
    formatar_tempo_timestamp (599999 / 10000 : ℚ) = "00:60.000" := by
  have hf : ⌊(599999 / 10000 : ℚ) / 60⌋ = ((0 : ℕ) : ℤ) := by
    norm_num [Int.floor_eq_iff]
  have hr : restoDe (599999 / 10000 : ℚ) * 1000 = 599999 / 10 := by
    rw [restoDe, hf]
    norm_num
  have h2 : roundHalfEven (restoDe (599999 / 10000 : ℚ) * 1000)
      = ((60000 : ℕ) : ℤ) := by
    rw [hr, roundHalfEven,
      show ⌊(599999 / 10 : ℚ)⌋ = 59999 from by norm_num [Int.floor_eq_iff]]
    norm_num
  rw [formatar_eval _ 0 60000 hf h2]
  decide

theorem formatar_6000 : formatar_tempo_timestamp 6000 = "100:00.000" := by
  have hf : ⌊(6000 : ℚ) / 60⌋ = ((100 : ℕ) : ℤ) := by
    norm_num [Int.floor_eq_iff]
  have hr : restoDe (6000 : ℚ) * 1000 = 0 := by
    rw [restoDe, hf]
    norm_num
  have h2 : roundHalfEven (restoDe (6000 : ℚ) * 1000) = ((0 : ℕ) : ℤ) := by
    rw [hr, roundHalfEven, show ⌊(0 : ℚ)⌋ = 0 from by norm_num]
    norm_num
  rw [formatar_eval 6000 100 0 hf h2]
  decide

/-- Claim C7 (confirmed): the timestamped writer emits one line per
segment, in order, each of the form `[mm:ss.mmm --> mm:ss.mmm]` then
exactly two spaces then the trimmed segment text; the minutes field is
zero-padded to at least two digits and the seconds field is a fixed
six-character `ss.mmm`; the segment
`{start: 122.0, end: 124.0, text: " hello "}` produces the line
`[02:02.000 --> 02:04.000]  hello`. -/
theorem C7_writer_timestamps (segments : List Segment) :
    salvar_txt_com_timestamps segments
      = String.join (segments.map linhaSegmento) ∧
    (∀ s : Segment, linhaSegmento s
      = "[" ++ formatar_tempo_timestamp s.inicio ++ " --> "
        ++ formatar_tempo_timestamp s.fim ++ "]  " ++ pyStrip s.texto ++ "\n") ∧
    (∀ q : ℚ, 2 ≤ (campoMinutos q).length ∧ (campoSegundos q).length = 6) ∧
    salvar_txt_com_timestamps [⟨122, 124, " hello "⟩]
      = "[02:02.000 --> 02:04.000]  hello\n" := by
  refine ⟨salvar_eq_join segments, fun s => rfl,
    fun q => ⟨campoMinutos_length q, campoSegundos_length q⟩, ?_⟩
  rw [salvar_txt_com_timestamps]
  simp only [List.foldl]
  rw [linhaSegmento]
  simp only
  rw [formatar_122, formatar_124]
  decide

/-- Claim C10 (confirmed): for non-negative seconds the formatter
renders `⌊seconds / 60⌋` — the full quotient, never reduced modulo 60
into hours — zero-padded to at least two digits, a colon, and
`seconds mod 60` with exactly three decimal places; the minutes field
has at least three digits from 6000 seconds on; and the fractional
seconds are rounded, not truncated, so `59.9999` formats as
`00:60.000`. -/
theorem C10_formatar (s : ℚ) (hs : 0 ≤ s) :
    formatar_tempo_timestamp s = campoMinutos s ++ ":" ++ campoSegundos s ∧
    minutosDe s = (⌊s / 60⌋).toNat ∧
    campoMinutos s = padZeros 2 (natRepr (minutosDe s)) ∧
    campoSegundos s
      = padZeros 6 (natRepr (msDe s / 1000) ++ "." ++ padZeros 3 (natRepr (msDe s % 1000))) ∧
    restoDe s = s - 60 * ((minutosDe s : ℕ) : ℚ) ∧
    2 ≤ (campoMinutos s).length ∧
    (6000 ≤ s → 100 ≤ minutosDe s ∧ 3 ≤ (campoMinutos s).length) ∧
    formatar_tempo_timestamp (599999 / 10000 : ℚ) = "00:60.000" ∧
    formatar_tempo_timestamp 6000 = "100:00.000" := by
  have hfloor_nonneg : 0 ≤ ⌊s / 60⌋ := by
    apply Int.floor_nonneg.mpr
    positivity
  refine ⟨rfl, rfl, rfl, rfl, ?_, campoMinutos_length s, ?_, formatar_599999e4,
    formatar_6000⟩
  · rw [restoDe, minutosDe]
    congr 2
    exact_mod_cast (Int.toNat_of_nonneg hfloor_nonneg).symm
  · intro h6000
    have hq : (100 : ℚ) ≤ s / 60 := by
      rw [le_div_iff₀ (by norm_num)]
      linarith
    have hfl : (100 : ℤ) ≤ ⌊s / 60⌋ := Int.le_floor.mpr (by exact_mod_cast hq)
    have hmin : 100 ≤ minutosDe s := by
      rw [minutosDe]
      omega
    refine ⟨hmin, ?_⟩
    rw [campoMinutos, padZeros_length]
    have : 3 ≤ (natRepr (minutosDe s)).length := by
      have := natRepr_len_ge (k := 2) (n := minutosDe s) (by norm_num; omega)
      omega
    omega

/-- Claim C10 witness: `C10_formatar` applied at 6000 seconds, whose
minutes field is the three-digit `100`. -/
theorem C10_formatar_witness :
    (0 : ℚ) ≤ 6000 ∧ (100 ≤ minutosDe 6000 ∧ 3 ≤ (campoMinutos (6000 : ℚ)).length) :=
  ⟨by norm_num, (C10_formatar 6000 (by norm_num)).2.2.2.2.2.2.1 (by norm_num)⟩

end WhisperPGE
